import Mathlib

/-!
# Verification development for `controller/controller.go`

Shallow embedding of the middleware chain composer (`ContextConverter`,
`Chain`) and of the registrations performed by `New`, followed by the
theorems settling the claims C1..C10.

Modelling conventions.

* A Go function with side effects is a state-passing function over an
  arbitrary state type `σ` (the heap, the response writer, counters, ...).
* The Go `error` interface is `GoError`: `nil` or an error with its message.
* `echo.Context` is an interface.  A value of it is either a
  `*context.Context` (constructor `app`) or any other value, the nil
  interface included (constructor `other`).
-/

namespace CoreController

/-! ## Go values -/

/-- The Go `error` interface: `nil`, or a non-nil error with its message. -/
inductive GoError where
  | nil
  | err (msg : String)
deriving DecidableEq, Repr

/-- The value built by `fmt.Errorf(msg)` for a format string without verbs. -/
def Errorf (msg : String) : GoError := GoError.err msg

/-- An `echo.Context` interface value: `app ctx` has dynamic type
`*context.Context`; `other c` is anything else (another implementation, or
the nil interface). -/
inductive EchoContext (κ ω : Type) where
  | app (ctx : κ)
  | other (c : ω)
deriving DecidableEq, Repr

/-- The comma-ok type assertion `ctx, ok := c.(*context.Context)`:
`some ctx` when `ok`, `none` otherwise. -/
def typeAssert {κ ω : Type} : EchoContext κ ω → Option κ
  | EchoContext.app ctx => some ctx
  | EchoContext.other _ => none

/-- The type `echo.HandlerFunc`, that is `func(echo.Context) error`. -/
abbrev HandlerFunc (σ κ ω : Type) : Type := EchoContext κ ω → σ → GoError × σ

/-- The type of an application handler, `func(*context.Context) error`. -/
abbrev AppHandler (σ κ : Type) : Type := κ → σ → GoError × σ

/-- The type `echo.MiddlewareFunc`, that is
`func(next echo.HandlerFunc) echo.HandlerFunc`. -/
abbrev MiddlewareFunc (σ κ ω : Type) : Type := HandlerFunc σ κ ω → HandlerFunc σ κ ω

/-! ## `ContextConverter` and `Chain` (controller.go, lines 263-280) -/

/-- Embedding of `ContextConverter`. -/
def ContextConverter {σ κ ω : Type} (handler : AppHandler σ κ) : HandlerFunc σ κ ω :=
  fun c s =>
    match typeAssert c with
    | none => (Errorf "failed to convert context", s)
    | some ctx => handler ctx s

/-- One iteration of the loop of `Chain`:
`aggregated = middlewares[len(middlewares)-i-1](aggregated)`. -/
def chainStep {σ κ ω : Type} (middlewares : List (MiddlewareFunc σ κ ω))
    (aggregated : HandlerFunc σ κ ω) (i : Nat) : HandlerFunc σ κ ω :=
  match middlewares[middlewares.length - i - 1]? with
  | some m => m aggregated
  | none => aggregated

/-- Embedding of `Chain`: the loop `for i := range middlewares` is a left
fold over the indices `0, ..., len(middlewares)-1`. -/
def Chain {σ κ ω : Type} (handler : AppHandler σ κ)
    (middlewares : List (MiddlewareFunc σ κ ω)) : HandlerFunc σ κ ω :=
  (List.range middlewares.length).foldl (chainStep middlewares) (ContextConverter handler)

/-! ## Instrumentation used to observe the order of execution -/

/-- A middleware that records the tag `t` in the trace when it gets control
and then passes control to `next`. -/
def enter {κ ω τ : Type} (t : τ) : MiddlewareFunc (List τ) κ ω :=
  fun next c s => next c (s ++ [t])

/-- A middleware that short-circuits: whatever `next` is, it returns the
handler `d` and never calls `next`. -/
def shortCircuit {σ κ ω : Type} (d : HandlerFunc σ κ ω) : MiddlewareFunc σ κ ω :=
  fun _ => d

/-- A handler that records the tag `t` in the trace and returns `nil`. -/
def record {κ τ : Type} (t : τ) : AppHandler (List τ) κ :=
  fun _ s => (GoError.nil, s ++ [t])

/-- A handler wrapped so that each invocation increments a counter kept
next to the state. -/
def counted {σ κ : Type} (h : AppHandler σ κ) : AppHandler (Nat × σ) κ :=
  fun ctx s => ((h ctx s.2).1, (s.1 + 1, (h ctx s.2).2))

/-! ## The registrations performed by `New` (controller.go, lines 30-261) -/

/-- HTTP methods used by `New`. -/
inductive Method where
  | GET
  | POST
  | DELETE
deriving DecidableEq, Repr

/-- The sub-controllers created at the start of `New`. -/
inductive SubController where
  | docsController
  | authController
  | userController
  | groupController
  | resumeController
  | siteController
deriving DecidableEq, Repr

/-- A method value such as `authController.GetToken`. -/
structure HandlerRef where
  controller : SubController
  name : String
deriving DecidableEq, Repr

/-- The committee identifiers of package `model` named by `New`. -/
inductive Committee where
  | GroupTop4
  | GroupCorporate
  | GroupAdmin
deriving DecidableEq, Repr

/-- The mark identifiers of package `model` named by `New`. -/
inductive Mark where
  | UserMarkRecruiter
deriving DecidableEq, Repr

/-- The expression given for the field `Marks` of
`middleware.AuthorizeMatchParameters`: left out, the slice variable
`model.UserValidMarks`, or a slice literal. -/
inductive MarksExpr where
  | unset
  | UserValidMarks
  | slice (marks : List Mark)
deriving DecidableEq, Repr

/-- The struct literal `middleware.AuthorizeMatchParameters{...}`; a field
left out of the literal is the empty slice. -/
structure AuthorizeMatchParameters where
  Marks : MarksExpr
  Committees : List Committee
deriving DecidableEq, Repr

/-- The middleware values passed to `Chain` in `New`. -/
inductive RouteMiddleware where
  | AuthorizeMatchAnyAPI (params : AuthorizeMatchParameters)
  | AuthorizeMatchAnyWebPage (params : AuthorizeMatchParameters)
deriving DecidableEq, Repr

/-- The middleware values passed to `controller.Use` in `New`. -/
inductive GlobalMiddleware where
  | Logger
  | Recover
  | Context
deriving DecidableEq, Repr

/-- One call `controller.METHOD(path, Chain(handler, middlewares...))`. -/
structure Route where
  method : Method
  path : String
  handler : HandlerRef
  middlewares : List RouteMiddleware
deriving DecidableEq, Repr

open Method SubController Committee Mark RouteMiddleware

/-- One registration call made on the embedded `*echo.Echo`. -/
inductive Registration where
  | Use (m : GlobalMiddleware)
  | Static (urlBase : String) (root : String)
  | Add (r : Route)
deriving DecidableEq, Repr

/-- The part of `echo.Echo` that `New` writes: the global middleware slice
(`Use` appends to it), the static mounts and the routes, each in order of
registration. -/
structure Echo where
  middleware : List GlobalMiddleware
  statics : List (String × String)
  routes : List Route
deriving DecidableEq, Repr

/-- The value of `echo.New()` as far as `New` is concerned. -/
def Echo.empty : Echo := ⟨[], [], []⟩

/-- Effect of one registration call on the `Echo`. -/
def Echo.register : Echo → Registration → Echo
  | ⟨middleware, statics, routes⟩, Registration.Use m => ⟨middleware ++ [m], statics, routes⟩
  | ⟨middleware, statics, routes⟩, Registration.Static urlBase root =>
    ⟨middleware, statics ++ [(urlBase, root)], routes⟩
  | ⟨middleware, statics, routes⟩, Registration.Add r => ⟨middleware, statics, routes ++ [r]⟩

/-- Shorthand for `controller.GET/POST/DELETE(path, Chain(c.name, mws...))`. -/
def route (method : Method) (path : String) (c : SubController) (name : String)
    (mws : List RouteMiddleware) : Registration :=
  Registration.Add ⟨method, path, ⟨c, name⟩, mws⟩

/-- The calls made by `New` on the controller, in source order
(controller.go, lines 56-258). -/
def registrations (staticBase : String) : List Registration :=
  [ Registration.Use GlobalMiddleware.Logger,
    Registration.Use GlobalMiddleware.Recover,
    Registration.Use GlobalMiddleware.Context,
    Registration.Static "/static" staticBase,
    route GET "/api" docsController "Documentation" [],
    route GET "/api/auth/:provider" authController "GetOAuthRedirect" [],
    route GET "/api/auth/:provider/redirect" authController "GetOAuthRedirectLanding" [],
    route POST "/api/auth/:provider" authController "GetToken" [],
    route GET "/api/user" userController "GetUser"
      [AuthorizeMatchAnyAPI ⟨MarksExpr.UserValidMarks, []⟩],
    route POST "/api/user" userController "CreateUser" [],
    route GET "/api/user/filter" userController "GetUsers"
      [AuthorizeMatchAnyAPI ⟨MarksExpr.slice [UserMarkRecruiter], [GroupTop4, GroupAdmin]⟩],
    route POST "/api/user/mark" userController "MarkUser"
      [AuthorizeMatchAnyAPI ⟨MarksExpr.unset, [GroupTop4, GroupAdmin]⟩],
    route DELETE "/api/user" userController "DeleteUser"
      [AuthorizeMatchAnyAPI ⟨MarksExpr.unset, [GroupTop4, GroupAdmin]⟩],
    route GET "/api/group" groupController "GetGroups" [],
    route POST "/api/group/verify" groupController "VerifyMembership" [],
    route POST "/api/resume" resumeController "UploadResume" [],
    route GET "/api/resume/filter" resumeController "GetResumes"
      [AuthorizeMatchAnyAPI
        ⟨MarksExpr.slice [UserMarkRecruiter], [GroupTop4, GroupCorporate, GroupAdmin]⟩],
    route POST "/api/resume/approve" resumeController "ApproveResume"
      [AuthorizeMatchAnyAPI ⟨MarksExpr.unset, [GroupTop4, GroupCorporate, GroupAdmin]⟩],
    route GET "/" siteController "Home" [],
    route GET "/about" siteController "About" [],
    route GET "/about/history" siteController "History" [],
    route GET "/reflectionsprojections" siteController "ReflectionsProjections" [],
    route GET "/hackillinois" siteController "HackIllinois" [],
    route GET "/sponsors" siteController "Sponsors" [],
    route GET "/sigs" siteController "Sigs" [],
    route GET "/login" siteController "Login" [],
    route GET "/logout" siteController "Logout" [],
    route GET "/join" siteController "Join" [],
    route GET "/resumeupload" siteController "ResumeUpload" [],
    route GET "/resumebook" siteController "ResumeBook"
      [AuthorizeMatchAnyWebPage
        ⟨MarksExpr.slice [UserMarkRecruiter], [GroupTop4, GroupCorporate, GroupAdmin]⟩],
    route GET "/intranet" siteController "Intranet" [],
    route GET "/intranet/usermanager" siteController "UserManager"
      [AuthorizeMatchAnyWebPage ⟨MarksExpr.unset, [GroupTop4, GroupAdmin]⟩],
    route GET "/intranet/recruitercreator" siteController "RecruiterCreator"
      [AuthorizeMatchAnyWebPage ⟨MarksExpr.unset, [GroupTop4, GroupCorporate, GroupAdmin]⟩],
    route GET "/intranet/recruitermanager" siteController "RecruiterManager"
      [AuthorizeMatchAnyWebPage ⟨MarksExpr.unset, [GroupTop4, GroupCorporate, GroupAdmin]⟩],
    route GET "/intranet/resumemanager" siteController "ResumeManager"
      [AuthorizeMatchAnyWebPage ⟨MarksExpr.unset, [GroupTop4, GroupCorporate, GroupAdmin]⟩],
    route GET "*" siteController "NotFound" [] ]

/-- The struct `Controller`: the embedded `*echo.Echo`, the service and the
templates (also installed as the renderer). -/
structure Controller (S T : Type) where
  echo : Echo
  renderer : T
  svc : S
  tmpl : T

/-- Embedding of `New`.  `tmpl` is the result of `template.New()` and
`staticBase` the result of `config.GetConfigValue("STATIC_BASE")`; an error of
either makes `New` return that error and no controller. -/
def New {S T : Type} (svc : S) (tmpl : Except String T) (staticBase : Except String String) :
    Except String (Controller S T) :=
  match tmpl with
  | Except.error err => Except.error ("failed to create templates: " ++ err)
  | Except.ok tmpl =>
    match staticBase with
    | Except.error _ => Except.error "failed to get static base"
    | Except.ok staticBase =>
      Except.ok
        { echo := (registrations staticBase).foldl Echo.register Echo.empty
          renderer := tmpl
          svc := svc
          tmpl := tmpl }

/-! ## Predicates on the route table -/

/-- The path begins with `/api/`. -/
def isAPIPath (path : String) : Bool := "/api/".toList.isPrefixOf path.toList

/-- The route carries at least one authorization middleware. -/
def Route.isProtected (r : Route) : Bool := !r.middlewares.isEmpty

/-- The parameters of an authorization middleware. -/
def RouteMiddleware.params : RouteMiddleware → AuthorizeMatchParameters
  | RouteMiddleware.AuthorizeMatchAnyAPI p => p
  | RouteMiddleware.AuthorizeMatchAnyWebPage p => p

/-- The middleware is the API variant. -/
def RouteMiddleware.isAPI : RouteMiddleware → Bool
  | RouteMiddleware.AuthorizeMatchAnyAPI _ => true
  | RouteMiddleware.AuthorizeMatchAnyWebPage _ => false

/-- The middleware is the page variant. -/
def RouteMiddleware.isWebPage : RouteMiddleware → Bool
  | RouteMiddleware.AuthorizeMatchAnyAPI _ => false
  | RouteMiddleware.AuthorizeMatchAnyWebPage _ => true

/-- The committee lists declared on a route, one for each of its
authorization middlewares. -/
def Route.committeeLists (r : Route) : List (List Committee) :=
  r.middlewares.map (fun m => m.params.Committees)

/-- Method and path of a route. -/
def Route.key (r : Route) : Method × String := (r.method, r.path)

/-- The routes registered by `New`, in order of registration (they do not
depend on the static base). -/
def routeTable : List Route :=
  ((registrations "").foldl Echo.register Echo.empty).routes

/-- The registration is a call of `controller.Use`. -/
def Registration.isUse : Registration → Bool
  | Registration.Use _ => true
  | _ => false

/-- The word occurs in the path. -/
def mentions (word path : String) : Bool :=
  path.toList.tails.any (fun t => word.toList.isPrefixOf t)

/-- The route declares a non-empty `Committees` list. -/
def Route.isCommitteeGated (r : Route) : Bool :=
  r.committeeLists.any (fun l => !l.isEmpty)

/-- The route declares `model.GroupCorporate` among its committees. -/
def Route.namesCorporate (r : Route) : Bool :=
  r.committeeLists.any (fun l => l.contains GroupCorporate)

/-- The user-management routes. -/
def userManagementRoutes : List (Method × String) :=
  [(GET, "/api/user/filter"), (POST, "/api/user/mark"), (DELETE, "/api/user"),
    (GET, "/intranet/usermanager")]

/-! ## Serving a request -/

/-- The stages that can get control while a request is served. -/
inductive Stage where
  | globalStage (g : GlobalMiddleware)
  | routeStage (m : RouteMiddleware)
  | handlerStage (h : HandlerRef)
deriving DecidableEq, Repr

/-- The handler registered for a route, `Chain(handler, middlewares...)`,
given what the handler and the middlewares stand for. -/
def Route.registered {σ κ ω : Type} (interpH : HandlerRef → AppHandler σ κ)
    (interpM : RouteMiddleware → MiddlewareFunc σ κ ω) (r : Route) : HandlerFunc σ κ ω :=
  Chain (interpH r.handler) (r.middlewares.map interpM)

/-- Behaviour of `ServeHTTP` of the echo library (an external dependency) for
a request routed to `routeHandler`: the global middlewares installed with
`Use` are applied from the last to the first,
`for i := len(e.middleware) - 1; i >= 0; i-- { h = e.middleware[i](h) }`,
and the result is called on the request's context. -/
def Echo.serve {σ κ ω : Type} (e : Echo) (interpG : GlobalMiddleware → MiddlewareFunc σ κ ω)
    (routeHandler : HandlerFunc σ κ ω) : HandlerFunc σ κ ω :=
  e.middleware.foldr (fun g acc => interpG g acc) routeHandler

/-- The request served for route `r` with every stage replaced by one that
records itself in the trace and passes control on. -/
def Echo.serveTraced {κ ω : Type} (e : Echo) (r : Route) : HandlerFunc (List Stage) κ ω :=
  e.serve (fun g => enter (Stage.globalStage g))
    (r.registered (fun h => record (Stage.handlerStage h)) (fun m => enter (Stage.routeStage m)))

/-! ## The decision engine -/

/-- Modelled from the spec: the request-scoped `Identity` of section 3
(package `middleware` and package `context` are not among the sources). -/
inductive Identity (μ γ : Type) where
  | Anonymous
  | Authenticated (subjectID : String) (marks : List μ) (committees : List γ)

/-- Modelled from the spec: the route policy `RequiredAttributes` of
section 3. -/
structure RequiredAttributes (μ γ : Type) where
  marks : List μ
  committees : List γ

/-- Modelled from the spec: `AuthDecision` of section 3. -/
inductive AuthDecision where
  | Allow
  | Deny (reason : String)
deriving DecidableEq, Repr

/-- Modelled from the spec: the algorithm `Decide` of section 4.4, which
stands for the body of `middleware.AuthorizeMatchAnyAPI` and
`middleware.AuthorizeMatchAnyWebPage` (package `middleware` is not among the
sources). -/
def Decide {μ γ : Type} [DecidableEq μ] [DecidableEq γ] (identity : Identity μ γ)
    (required : RequiredAttributes μ γ) : AuthDecision :=
  if required.marks.isEmpty && required.committees.isEmpty then AuthDecision.Allow
  else
    match identity with
    | Identity.Anonymous => AuthDecision.Deny "unauthenticated"
    | Identity.Authenticated _ marks committees =>
      let markMatch := marks.any (fun x => required.marks.contains x)
      let committeeMatch := committees.any (fun x => required.committees.contains x)
      if markMatch || committeeMatch then AuthDecision.Allow
      else AuthDecision.Deny "insufficient-privilege"

/-- The `RequiredAttributes` declared by an `AuthorizeMatchParameters`
literal, given the marks each `Marks` expression evaluates to. -/
def AuthorizeMatchParameters.required {μ : Type} (marksOf : MarksExpr → List μ)
    (p : AuthorizeMatchParameters) : RequiredAttributes μ Committee :=
  ⟨marksOf p.Marks, p.Committees⟩

/-! ## Concrete values used in the evaluations -/

/-- A denial handler: it returns an error and leaves the state alone. -/
def denied : HandlerFunc (List Nat) Unit Unit :=
  fun _ s => (GoError.err "denied", s)

/-- The identity middleware: it returns `next` itself. -/
def allowAll : MiddlewareFunc (List Nat) Unit Unit :=
  fun next => next

/-! ## Basic lemmas on `Chain` -/

theorem foldl_range_getElem {α β : Type} (g : β → α → β) (l : List α) (init : β) :
    (List.range l.length).foldl
      (fun acc i => match l[i]? with
        | some a => g acc a
        | none => acc) init = l.foldl g init := by
  induction l using List.reverseRecOn generalizing init with
  | nil => simp
  | append_singleton l a ih =>
    rw [List.length_append, List.length_singleton, List.range_succ, List.foldl_append,
      List.foldl_append]
    have h1 : (List.range l.length).foldl
        (fun acc i => match (l ++ [a])[i]? with
          | some a => g acc a
          | none => acc) init = l.foldl g init := by
      rw [← ih init]
      apply List.foldl_ext
      intro acc i hi
      rw [List.mem_range] at hi
      rw [List.getElem?_append_left hi]
    rw [h1]
    simp

theorem chain_eq_foldr {σ κ ω : Type} (h : AppHandler σ κ)
    (ms : List (MiddlewareFunc σ κ ω)) :
    Chain h ms = ms.foldr (fun m acc => m acc) (ContextConverter h) := by
  unfold Chain
  rw [← List.foldl_reverse, ← foldl_range_getElem (fun acc m => m acc) ms.reverse]
  rw [List.length_reverse]
  apply List.foldl_ext
  intro acc i hi
  rw [List.mem_range] at hi
  unfold chainStep
  have : ms.reverse[i]? = ms[ms.length - i - 1]? := by
    rw [List.getElem?_reverse hi]
    congr 1
    omega
  rw [this]
  cases ms[ms.length - i - 1]? <;> rfl


theorem foldr_enter {κ ω τ : Type} (ts : List τ) (inner : HandlerFunc (List τ) κ ω)
    (c : EchoContext κ ω) (s : List τ) :
    (ts.map enter).foldr (fun m acc => m acc) inner c s = inner c (s ++ ts) := by
  induction ts generalizing s with
  | nil => simp
  | cons t ts ih =>
    simp only [List.map_cons, List.foldr_cons]
    show (ts.map enter).foldr (fun m acc => m acc) inner c (s ++ [t]) = _
    rw [ih]
    simp

theorem chain_enter {κ ω τ : Type} (g : AppHandler (List τ) κ) (ts : List τ)
    (c : EchoContext κ ω) (s : List τ) :
    Chain g (ts.map enter) c s = ContextConverter g c (s ++ ts) := by
  rw [chain_eq_foldr, foldr_enter]

theorem chain_cons {σ κ ω : Type} (h : AppHandler σ κ) (m : MiddlewareFunc σ κ ω)
    (ms : List (MiddlewareFunc σ κ ω)) : Chain h (m :: ms) = m (Chain h ms) := by
  simp only [chain_eq_foldr, List.foldr_cons]

theorem chain_append {σ κ ω : Type} (h : AppHandler σ κ)
    (ms ms' : List (MiddlewareFunc σ κ ω)) :
    Chain h (ms ++ ms') = ms.foldr (fun m acc => m acc) (Chain h ms') := by
  simp only [chain_eq_foldr, List.foldr_append]

/-! ## The claims on `Chain` and `ContextConverter` -/

/-- C1: for every handler `h` and every list of middlewares `m1, ..., mn`
(`n >= 0`), `Chain(h, m1, ..., mn)` is `m1(m2(...(mn(ContextConverter(h)))))`;
consequently, when the middlewares are stages that record themselves and
pass control on, they get control in declared order and only then the
(converted) handler runs. -/
theorem C1_chain_is_nested_application {σ κ ω : Type} (h : AppHandler σ κ)
    (ms : List (MiddlewareFunc σ κ ω)) :
    Chain h ms = ms.foldr (fun m acc => m acc) (ContextConverter h) ∧
    (∀ m1 m2 m3 : MiddlewareFunc σ κ ω,
      Chain h [m1, m2, m3] = m1 (m2 (m3 (ContextConverter h)))) ∧
    (∀ (τ : Type) (g : AppHandler (List τ) κ) (ts : List τ) (c : EchoContext κ ω) (s : List τ),
      Chain g (ts.map enter) c s = ContextConverter g c (s ++ ts)) ∧
    (∀ (τ : Type) (t0 : τ) (ts : List τ) (ctx : κ) (s : List τ),
      Chain (record t0) (ts.map enter) (EchoContext.app ctx : EchoContext κ ω) s
        = (GoError.nil, s ++ ts ++ [t0])) := by
  refine ⟨chain_eq_foldr h ms, ?_, ?_, ?_⟩
  · intro m1 m2 m3
    rw [chain_eq_foldr]
    rfl
  · intro τ g ts c s
    exact chain_enter g ts c s
  · intro τ t0 ts ctx s
    rw [chain_enter]
    rfl

/-- C2, evaluation against the claim: with two recording middlewares tagged
1 and 2 (in this order) and a handler tagged 0, the chain runs 1, then 2,
then 0, whereas applying the first-listed middleware directly to the
converted handler would run 2, then 1, then 0. -/
theorem C2_first_listed_is_not_innermost :
    (Chain (record 0) [enter 1, enter 2] : HandlerFunc (List Nat) Unit Unit)
        (EchoContext.app ()) [] = (GoError.nil, [1, 2, 0]) ∧
    (enter 2 (enter 1 (ContextConverter (record 0))) : HandlerFunc (List Nat) Unit Unit)
        (EchoContext.app ()) [] = (GoError.nil, [2, 1, 0]) ∧
    (Chain (record 0) [enter 1, enter 2] : HandlerFunc (List Nat) Unit Unit)
        (EchoContext.app ()) []
      ≠ (enter 2 (enter 1 (ContextConverter (record 0))) : HandlerFunc (List Nat) Unit Unit)
        (EchoContext.app ()) [] := by
  decide

/-- C2 (amended): for every handler `h` and every list of at least two
middlewares `m1, mid..., mn` passed to `Chain`, the last-listed middleware
`mn` is the one applied directly to the converted handler (the innermost
wrapper, running last before the handler) and the first-listed `m1` is the
outermost wrapper (running first). -/
theorem C2_last_listed_is_innermost {σ κ ω : Type} (h : AppHandler σ κ)
    (m1 : MiddlewareFunc σ κ ω) (mid : List (MiddlewareFunc σ κ ω))
    (mn : MiddlewareFunc σ κ ω) :
    Chain h (m1 :: (mid ++ [mn]))
      = m1 (mid.foldr (fun m acc => m acc) (mn (ContextConverter h))) ∧
    (∀ (τ : Type) (t0 t1 tn : τ) (tmid : List τ) (ctx : κ) (s : List τ),
      Chain (record t0) (enter t1 :: (tmid.map enter ++ [enter tn]))
          (EchoContext.app ctx : EchoContext κ ω) s
        = (GoError.nil, s ++ [t1] ++ tmid ++ [tn] ++ [t0])) := by
  constructor
  · rw [chain_cons, chain_append, chain_cons, chain_eq_foldr]
    rfl
  · intro τ t0 t1 tn tmid ctx s
    have e : (enter t1 :: (tmid.map enter ++ [enter tn]) : List (MiddlewareFunc (List τ) κ ω))
        = (t1 :: (tmid ++ [tn])).map enter := by simp
    rw [e, chain_enter]
    simp [ContextConverter, typeAssert, record]

/-- C3: if the middleware at position `k` of `ms` short-circuits (for every
`next` it returns the same denial handler `d`), then `Chain(h, ms...)` is the
middlewares before position `k` wrapped around `d`; it is the same for every
other handler and every other list of middlewares after position `k`; and
for a single such middleware `Chain(h, m) = d`. -/
theorem C3_short_circuit {σ κ ω : Type} (h : AppHandler σ κ)
    (ms : List (MiddlewareFunc σ κ ω)) (k : Nat) (d : HandlerFunc σ κ ω)
    (hk : k < ms.length) (hd : ∀ next, ms[k] next = d) :
    Chain h ms = (ms.take k).foldr (fun m acc => m acc) d ∧
    (∀ (h' : AppHandler σ κ) (after : List (MiddlewareFunc σ κ ω)),
      Chain h' (ms.take (k + 1) ++ after) = Chain h ms) ∧
    (ms.length = 1 → Chain h ms = d) := by
  have key : ∀ (h' : AppHandler σ κ) (after : List (MiddlewareFunc σ κ ω)),
      Chain h' (ms.take k ++ ms[k] :: after) = (ms.take k).foldr (fun m acc => m acc) d := by
    intro h' after
    rw [chain_append, chain_cons, hd]
  have split : ms = ms.take k ++ ms[k] :: ms.drop (k + 1) := by
    rw [← List.drop_eq_getElem_cons hk, List.take_append_drop]
  have first : Chain h ms = (ms.take k).foldr (fun m acc => m acc) d := by
    conv_lhs => rw [split]
    exact key h _
  refine ⟨first, ?_, ?_⟩
  · intro h' after
    rw [first, List.take_succ, List.getElem?_eq_getElem hk]
    simp only [Option.toList, List.append_assoc, List.singleton_append]
    exact key h' after
  · intro h1
    have hk0 : k = 0 := by omega
    rw [first, hk0]
    rfl

/-- C3, evaluated: between a recording middleware 1 and a recording
middleware 2, a middleware that always returns `denied` stops the chain
after stage 1; neither stage 2 nor the handler 0 runs. -/
theorem C3_short_circuit_witness :
    Chain (record 0) [enter 1, shortCircuit denied, enter 2] (EchoContext.app ()) []
      = (GoError.err "denied", [1]) := by
  rw [(C3_short_circuit (record 0) [enter 1, shortCircuit denied, enter 2] 1 denied
    (by decide) (fun _ => rfl)).1]
  decide

/-- C4: a middleware that allows, `m(next) = next` for every `next`, is
neutral in `Chain`: `Chain(h, ms ++ [m] ++ ms') = Chain(h, ms ++ ms')`, and in
particular `Chain(h, m) = Chain(h) = ContextConverter(h)`. -/
theorem C4_allowing_middleware_is_neutral {σ κ ω : Type} (h : AppHandler σ κ)
    (m : MiddlewareFunc σ κ ω) (ms ms' : List (MiddlewareFunc σ κ ω))
    (hm : ∀ next, m next = next) :
    Chain h (ms ++ [m] ++ ms') = Chain h (ms ++ ms') ∧
    Chain h [m] = Chain h [] ∧
    (Chain h [] : HandlerFunc σ κ ω) = ContextConverter h := by
  refine ⟨?_, ?_, ?_⟩
  · rw [List.append_assoc, chain_append, List.singleton_append, chain_cons, hm, ← chain_append]
  · rw [chain_cons, hm]
  · rfl

/-- C4, evaluated: the identity middleware between two recording
middlewares leaves the chain as it is without it. -/
theorem C4_allowing_middleware_witness :
    (Chain (record 0) ([enter 1] ++ [allowAll] ++ [enter 2]) : HandlerFunc (List Nat) Unit Unit)
      = Chain (record 0) ([enter 1] ++ [enter 2]) ∧
    (Chain (record 0) ([enter 1] ++ [enter 2]) : HandlerFunc (List Nat) Unit Unit)
        (EchoContext.app ()) []
      = (GoError.nil, [1, 2, 0]) :=
  ⟨(C4_allowing_middleware_is_neutral (record 0) allowAll [enter 1] [enter 2]
      (fun _ => rfl)).1, by decide⟩

/-- C5: for every handler `h`, `Chain(h)` with no middleware is
`ContextConverter(h)`; on every request context that is a
`*context.Context`, whatever it carries, the composed handler does exactly
what `h` does on that context (same result, same effect), and `h` is invoked
exactly once: a counter incremented at each invocation of `h` goes up by
one. -/
theorem C5_no_requirement_is_public {σ κ ω : Type} (h : AppHandler σ κ) :
    (Chain h [] : HandlerFunc σ κ ω) = ContextConverter h ∧
    (∀ (ctx : κ) (s : σ),
      (Chain h [] : HandlerFunc σ κ ω) (EchoContext.app ctx) s = h ctx s) ∧
    (∀ (ctx : κ) (n : Nat) (s : σ),
      (Chain (counted h) [] : HandlerFunc (Nat × σ) κ ω) (EchoContext.app ctx) (n, s)
        = ((h ctx s).1, (n + 1, (h ctx s).2))) :=
  ⟨rfl, fun _ _ => rfl, fun _ _ _ => rfl⟩

/-- C9: for every handler `h` and echo context `c`: if `c` is not a
`*context.Context`, `ContextConverter(h)(c)` returns the non-nil error
"failed to convert context" and `h` is not invoked (the state is untouched
and the invocation counter of `h` stays where it was); if `c` is a
`*context.Context`, the type assertion succeeds and `ContextConverter(h)(c)`
is exactly `h(c)`, so the conversion error can only come out if `h` returned
it.  `Chain` applies `ContextConverter` innermost, so with middlewares that
record themselves and pass control on, the conversion error comes after
every listed middleware has run. -/
theorem C9_context_conversion {σ κ ω : Type} (h : AppHandler σ κ) :
    (∀ (o : ω) (s : σ),
      ContextConverter h (EchoContext.other o : EchoContext κ ω) s
        = (GoError.err "failed to convert context", s)) ∧
    (∀ (o : ω) (n : Nat) (s : σ),
      ContextConverter (counted h) (EchoContext.other o : EchoContext κ ω) (n, s)
        = (GoError.err "failed to convert context", (n, s))) ∧
    GoError.err "failed to convert context" ≠ GoError.nil ∧
    (∀ (ctx : κ), typeAssert (EchoContext.app ctx : EchoContext κ ω) = some ctx) ∧
    (∀ (ctx : κ) (s : σ),
      ContextConverter h (EchoContext.app ctx : EchoContext κ ω) s = h ctx s) ∧
    (∀ (ctx : κ) (s : σ), (h ctx s).1 ≠ GoError.err "failed to convert context" →
      (ContextConverter h (EchoContext.app ctx : EchoContext κ ω) s).1
        ≠ GoError.err "failed to convert context") ∧
    (∀ ms : List (MiddlewareFunc σ κ ω),
      Chain h ms = ms.foldr (fun m acc => m acc) (ContextConverter h)) ∧
    (∀ (τ : Type) (g : AppHandler (List τ) κ) (ts : List τ) (o : ω) (s : List τ),
      Chain g (ts.map enter) (EchoContext.other o : EchoContext κ ω) s
        = (GoError.err "failed to convert context", s ++ ts)) := by
  refine ⟨fun _ _ => rfl, fun _ _ _ => rfl, ?_, fun _ => rfl, fun _ _ => rfl,
    fun _ _ hne => hne, fun ms => chain_eq_foldr h ms, ?_⟩
  · intro hcontra
    cases hcontra
  · intro τ g ts o s
    rw [chain_enter]
    rfl

/-! ## The claims on the registrations of `New` -/

theorem routes_eq_routeTable (staticBase : String) :
    ((registrations staticBase).foldl Echo.register Echo.empty).routes = routeTable :=
  rfl

theorem serveTraced_eq {κ ω : Type} (e : Echo) (r : Route) (c : EchoContext κ ω)
    (s : List Stage) :
    e.serveTraced r c s
      = ContextConverter (record (Stage.handlerStage r.handler)) c
          (s ++ e.middleware.map Stage.globalStage ++ r.middlewares.map Stage.routeStage) := by
  unfold Echo.serveTraced Echo.serve Route.registered
  have e1 : ∀ inner : HandlerFunc (List Stage) κ ω,
      e.middleware.foldr (fun g acc => enter (Stage.globalStage g) acc) inner
        = ((e.middleware.map Stage.globalStage).map enter).foldr (fun m acc => m acc) inner := by
    intro inner
    rw [List.map_map, List.foldr_map]
    rfl
  have e2 : r.middlewares.map (fun m => (enter (Stage.routeStage m) : MiddlewareFunc (List Stage) κ ω))
      = (r.middlewares.map Stage.routeStage).map enter := by
    rw [List.map_map]
    rfl
  rw [e1, foldr_enter, e2, chain_enter]

theorem decide_allow_of_committee {μ γ : Type} [DecidableEq μ] [DecidableEq γ]
    (subjectID : String) (marks : List μ) (committees : List γ)
    (required : RequiredAttributes μ γ) (x : γ) (hx : x ∈ committees)
    (hr : x ∈ required.committees) :
    Decide (Identity.Authenticated subjectID marks committees) required = AuthDecision.Allow := by
  unfold Decide
  split
  · rfl
  · have hc : committees.any (fun y => required.committees.contains y) = true := by
      rw [List.any_eq_true]
      exact ⟨x, hx, by simpa using hr⟩
    simp only [hc, Bool.or_true, if_true]

/-- C6: in the route table built by `New`, the handlers of the
authentication controller are bound to exactly three routes, GET
/api/auth/:provider (GetOAuthRedirect), GET /api/auth/:provider/redirect
(GetOAuthRedirectLanding) and POST /api/auth/:provider (GetToken), and each of
them is registered with an empty middleware list. -/
theorem C6_auth_routes {S T : Type} (svc : S) (tmpl : T) (staticBase : String) :
    ∃ c, New svc (Except.ok tmpl) (Except.ok staticBase) = Except.ok c ∧
      c.echo.routes.filter (fun r => r.handler.controller == authController)
        = [ ⟨GET, "/api/auth/:provider", ⟨authController, "GetOAuthRedirect"⟩, []⟩,
            ⟨GET, "/api/auth/:provider/redirect",
              ⟨authController, "GetOAuthRedirectLanding"⟩, []⟩,
            ⟨POST, "/api/auth/:provider", ⟨authController, "GetToken"⟩, []⟩ ] := by
  refine ⟨_, rfl, ?_⟩
  show routeTable.filter (fun r => r.handler.controller == authController) = _
  decide

/-- C7: every route registered by `New` that carries an authorization
middleware carries exactly one; if its path begins with /api/ the middleware
is the API variant and the method is GET, POST or DELETE; otherwise the
middleware is the page variant and the method is GET.  No /api/ route uses
the page variant and no page route uses the API variant.  There are eleven
such routes. -/
theorem C7_variant_matches_path {S T : Type} (svc : S) (tmpl : T) (staticBase : String) :
    ∃ c, New svc (Except.ok tmpl) (Except.ok staticBase) = Except.ok c ∧
      (∀ r ∈ c.echo.routes, r.isProtected = true →
        r.middlewares.length = 1 ∧
        (if isAPIPath r.path = true then
          (∀ m ∈ r.middlewares, m.isAPI = true) ∧ r.method ∈ [GET, POST, DELETE]
        else
          (∀ m ∈ r.middlewares, m.isWebPage = true) ∧ r.method = GET)) ∧
      (∀ r ∈ c.echo.routes, ∀ m ∈ r.middlewares,
        (m.isWebPage = true → isAPIPath r.path = false) ∧
        (m.isAPI = true → isAPIPath r.path = true)) ∧
      (c.echo.routes.filter Route.isProtected).length = 11 := by
  refine ⟨_, rfl, ?_, ?_, ?_⟩
  · show ∀ r ∈ routeTable, r.isProtected = true →
        r.middlewares.length = 1 ∧
        (if isAPIPath r.path = true then
          (∀ m ∈ r.middlewares, m.isAPI = true) ∧ r.method ∈ [GET, POST, DELETE]
        else
          (∀ m ∈ r.middlewares, m.isWebPage = true) ∧ r.method = GET)
    decide
  · show ∀ r ∈ routeTable, ∀ m ∈ r.middlewares,
        (m.isWebPage = true → isAPIPath r.path = false) ∧
        (m.isAPI = true → isAPIPath r.path = true)
    decide
  · show (routeTable.filter Route.isProtected).length = 11
    decide

/-- C8, evaluation against the claim: the first global middleware installed
by `New` is echo's `Logger`, not `middleware.Context`; on a request for the
home page `Logger` and `Recover` get control before `Context`. -/
theorem C8_context_is_not_first :
    ∃ c, New () (Except.ok ()) (Except.ok "static") = Except.ok c ∧
      c.echo.middleware.head? = some GlobalMiddleware.Logger ∧
      c.echo.middleware.head? ≠ some GlobalMiddleware.Context ∧
      (c.echo.serveTraced ⟨GET, "/", ⟨siteController, "Home"⟩, []⟩ :
          HandlerFunc (List Stage) Unit Unit) (EchoContext.app ()) []
        = (GoError.nil,
            [Stage.globalStage GlobalMiddleware.Logger,
              Stage.globalStage GlobalMiddleware.Recover,
              Stage.globalStage GlobalMiddleware.Context,
              Stage.handlerStage ⟨siteController, "Home"⟩]) :=
  ⟨_, rfl, by decide, by decide, by decide⟩

/-- C8 (amended): `middleware.Context` is installed by `New` as a global
middleware before any route is registered (the three `Use` calls are the first
three registrations and no later registration is a `Use`), so it applies to
every route, those without an authorization requirement included.  It is the
third and last global middleware: echo's `Logger` and `Recover` are installed
before it and get control before it; no per-route middleware and no handler
gets control before it. -/
theorem C8_context_is_last_global {S T : Type} (svc : S) (tmpl : T) (staticBase : String) :
    ∃ c, New svc (Except.ok tmpl) (Except.ok staticBase) = Except.ok c ∧
      c.echo.middleware
        = [GlobalMiddleware.Logger, GlobalMiddleware.Recover, GlobalMiddleware.Context] ∧
      (registrations staticBase).take 3
        = [Registration.Use GlobalMiddleware.Logger, Registration.Use GlobalMiddleware.Recover,
            Registration.Use GlobalMiddleware.Context] ∧
      ((registrations staticBase).drop 3).all (fun reg => !reg.isUse) = true ∧
      (∀ (κ ω : Type) (r : Route) (ctx : κ) (s : List Stage),
        (c.echo.serveTraced r : HandlerFunc (List Stage) κ ω) (EchoContext.app ctx) s
          = (GoError.nil,
              s ++ [Stage.globalStage GlobalMiddleware.Logger,
                    Stage.globalStage GlobalMiddleware.Recover,
                    Stage.globalStage GlobalMiddleware.Context]
                ++ r.middlewares.map Stage.routeStage ++ [Stage.handlerStage r.handler])) := by
  refine ⟨_, rfl, rfl, rfl, rfl, ?_⟩
  intro κ ω r ctx s
  rw [serveTraced_eq]
  rfl

/-- C10: every route registered by `New` whose parameters declare a non-empty
`Committees` list names both `model.GroupTop4` and `model.GroupAdmin` in it,
and the list is either top4, admin or top4, corporate, admin; so an
authenticated member of top4 or of admin is allowed on every such route by
the match-any decision.  `model.GroupCorporate` is named exactly on six routes,
all of them resume or recruiter routes, and on none of the user-management
routes.  The only protected route without a committee list is GET /api/user,
whose parameters give `Marks` alone. -/
theorem C10_committee_lists {S T : Type} (svc : S) (tmpl : T) (staticBase : String) :
    ∃ c, New svc (Except.ok tmpl) (Except.ok staticBase) = Except.ok c ∧
      (∀ r ∈ c.echo.routes, ∀ l ∈ r.committeeLists, l ≠ [] →
        GroupTop4 ∈ l ∧ GroupAdmin ∈ l ∧
        (l = [GroupTop4, GroupAdmin] ∨ l = [GroupTop4, GroupCorporate, GroupAdmin])) ∧
      (c.echo.routes.filter Route.isCommitteeGated).length = 10 ∧
      (∀ (μ : Type) (_ : DecidableEq μ) (marksOf : MarksExpr → List μ),
        ∀ r ∈ c.echo.routes, ∀ m ∈ r.middlewares, m.params.Committees ≠ [] →
        ∀ (subjectID : String) (marks : List μ) (committees : List Committee),
          GroupTop4 ∈ committees ∨ GroupAdmin ∈ committees →
          Decide (Identity.Authenticated subjectID marks committees)
            (m.params.required marksOf) = AuthDecision.Allow) ∧
      (c.echo.routes.filter Route.namesCorporate).map Route.key
        = [(GET, "/api/resume/filter"), (POST, "/api/resume/approve"), (GET, "/resumebook"),
            (GET, "/intranet/recruitercreator"), (GET, "/intranet/recruitermanager"),
            (GET, "/intranet/resumemanager")] ∧
      (∀ r ∈ c.echo.routes, r.namesCorporate = true →
        mentions "resume" r.path = true ∨ mentions "recruiter" r.path = true) ∧
      (∀ r ∈ c.echo.routes, r.key ∈ userManagementRoutes →
        r.isCommitteeGated = true ∧ r.namesCorporate = false) ∧
      c.echo.routes.filter (fun r => r.isProtected && !r.isCommitteeGated)
        = [ ⟨GET, "/api/user", ⟨userController, "GetUser"⟩,
              [AuthorizeMatchAnyAPI ⟨MarksExpr.UserValidMarks, []⟩]⟩ ] := by
  have table : ∀ r ∈ routeTable, ∀ l ∈ r.committeeLists, l ≠ [] →
      GroupTop4 ∈ l ∧ GroupAdmin ∈ l ∧
      (l = [GroupTop4, GroupAdmin] ∨ l = [GroupTop4, GroupCorporate, GroupAdmin]) := by
    decide
  refine ⟨_, rfl, table, ?_, ?_, ?_, ?_, ?_, ?_⟩
  · show (routeTable.filter Route.isCommitteeGated).length = 10
    decide
  · intro μ _ marksOf r hr m hm hne subjectID marks committees hmem
    have hl : m.params.Committees ∈ r.committeeLists :=
      List.mem_map.mpr ⟨m, hm, rfl⟩
    obtain ⟨h4, ha, _⟩ := table r hr _ hl hne
    rcases hmem with h | h
    · exact decide_allow_of_committee subjectID marks committees _ GroupTop4 h h4
    · exact decide_allow_of_committee subjectID marks committees _ GroupAdmin h ha
  · show (routeTable.filter Route.namesCorporate).map Route.key = _
    decide
  · show ∀ r ∈ routeTable, r.namesCorporate = true →
        mentions "resume" r.path = true ∨ mentions "recruiter" r.path = true
    decide
  · show ∀ r ∈ routeTable, r.key ∈ userManagementRoutes →
        r.isCommitteeGated = true ∧ r.namesCorporate = false
    decide
  · show routeTable.filter (fun r => r.isProtected && !r.isCommitteeGated) = _
    decide

end CoreController
